import Mathlib

/-!
# TSID extension: identifier generation and timestamp extraction

A shallow embedding of `src/tsid_extension.cpp` (the two scalar functions
`TsidScalarFun`, `TsidToTimestampScalarFun` and the registration `LoadInternal`)
together with the identifier codec the extension calls into (`uutid.hpp`), which
is described by the design document only.

The first part follows the C++ source statement by statement.  The identifier
library is taken as a parameter there (`UUTIDReader`, `UUTIDGenerator`), so those
results hold for every implementation of the library.  The second part gives
the codec of the design document (bit layout, hexadecimal text form,
validation) and plugs it into the first.
-/

namespace Tsid

/-! ## Host engine types used by the extension -/

/-- The host type `timestamp_t`: a signed 64-bit count of microseconds since the
UNIX epoch. -/
structure timestamp_t where
  value : Int
  deriving DecidableEq

/-- The host exception `ConversionException`, carrying its user-visible message. -/
structure ConversionException where
  message : String
  deriving DecidableEq

/-- Two's-complement reduction of an integer to the signed 64-bit range. -/
def wrap64 (x : Int) : Int :=
  (x + 2 ^ 63) % 2 ^ 64 - 2 ^ 63

/-- The range of a signed 64-bit integer. -/
def fitsInt64 (x : Int) : Prop :=
  -(2 ^ 63) ≤ x ∧ x < 2 ^ 63

instance (x : Int) : Decidable (fitsInt64 x) := by
  unfold fitsInt64; infer_instance

/-- A `std::ratio`: the tick period of a duration type, in seconds. -/
structure Period where
  num : Nat
  den : Nat
  deriving DecidableEq

/-- The period `std::milli`. -/
def Period.milli : Period := ⟨1, 1000⟩

/-- The period `std::micro`. -/
def Period.micro : Period := ⟨1, 1000000⟩

/-- The period `std::nano`. -/
def Period.nano : Period := ⟨1, 1000000000⟩

/-- `std::chrono::duration_cast<std::chrono::microseconds>(d).count()` for a
duration `d` of `count` ticks of period `p`, with a 64-bit signed representation.
The conversion factor is `p / micro` in lowest terms; the count is multiplied by
its numerator and divided (truncating toward zero) by its denominator, each step
being skipped when the factor is one.  A product that leaves the signed 64-bit
range is reduced by `wrap64`. -/
def duration_cast_microseconds (p : Period) (count : Int) : Int :=
  let g := Nat.gcd (p.num * 1000000) p.den
  let cfNum := p.num * 1000000 / g
  let cfDen := p.den / g
  if cfDen = 1 then
    if cfNum = 1 then count else wrap64 (count * cfNum)
  else
    if cfNum = 1 then Int.tdiv count cfDen
    else Int.tdiv (wrap64 (count * cfNum)) cfDen

/-- Expansion of a printf-style message template: `%s` is replaced by the next
parameter, `%%` by a percent sign, every other character is copied. -/
def formatChars : List Char → List String → List Char
  | '%' :: 's' :: rest, p :: ps => p.data ++ formatChars rest ps
  | '%' :: '%' :: rest, ps => '%' :: formatChars rest ps
  | c :: rest, ps => c :: formatChars rest ps
  | [], _ => []

/-- The message construction of the host exception constructors
(`Exception::ConstructMessage`). -/
def ConstructMessage (msg : String) (params : List String) : String :=
  String.mk (formatChars msg.data params)

/-! ## The identifier library as seen from the extension -/

/-- The decoding side of `uutid.hpp` used by the extension.  `U` is the identifier
type `UUTID`, `ε` the type of the `std::exception`s its functions may throw.
`period` is the tick period of the time point returned by `time()`, whose count
of ticks since the epoch is what `time` yields here. -/
structure UUTIDReader (U ε : Type) where
  from_string : String → Except ε U
  time : U → Except ε Int
  period : Period

/-- The generating side of `uutid.hpp` used by the extension.  `σ` is the process
state read and updated by the generator (clock, random source, sequence state). -/
structure UUTIDGenerator (U σ : Type) where
  new_id : σ → U × σ
  to_string : U → String

/-! ## `TsidToTimestampScalarFun`: the per-row function -/

/-- The lambda passed to `UnaryExecutor::Execute` in `TsidToTimestampScalarFun`,
applied by the host to each row: parse the text, read the time point, convert its
time since the epoch to microseconds; any `std::exception` thrown on the way is
replaced by a `ConversionException` built from the input text. -/
def TsidToTimestampScalarFun.lambda {U ε : Type} (lib : UUTIDReader U ε) (input : String) :
    Except ConversionException timestamp_t :=
  match lib.from_string input with
  | .error _ => .error ⟨ConstructMessage "Invalid TSID format: %s" [input]⟩
  | .ok id =>
    match lib.time id with
    | .error _ => .error ⟨ConstructMessage "Invalid TSID format: %s" [input]⟩
    | .ok tp =>
      let micros := duration_cast_microseconds lib.period tp
      .ok ⟨micros⟩

/-! ## `TsidScalarFun`: the batch generator -/

/-- A flat result vector of the host: the data array and the validity mask. -/
structure Vector where
  data : Nat → String
  validity : Nat → Bool

/-- The two writes of one loop iteration: `result_data[i] = ...; validity.Set(i, true)`. -/
def Vector.write (v : Vector) (i : Nat) (s : String) : Vector :=
  { data := fun j => if j = i then s else v.data j
    validity := fun j => if j = i then true else v.validity j }

/-- The state threaded through `TsidScalarFun`: the generator's process state,
the number of calls made to `UUTID::new_id` so far, and the result vector. -/
structure BatchState (σ : Type) where
  gen : σ
  calls : Nat
  result : Vector

/-- The loop `for (idx_t i = 0; i < args.size(); i++)` of `TsidScalarFun`, started
at row `i` with `remaining = args.size() - i` iterations to go. -/
def TsidScalarFunLoop {U σ : Type} (lib : UUTIDGenerator U σ) :
    Nat → Nat → BatchState σ → BatchState σ
  | _, 0, st => st
  | i, remaining + 1, st =>
    let (id, gen') := lib.new_id st.gen
    TsidScalarFunLoop lib (i + 1) remaining
      { gen := gen', calls := st.calls + 1, result := st.result.write i (lib.to_string id) }

/-- The function `TsidScalarFun` on a batch of `size` rows (`args.size()`). -/
def TsidScalarFun {U σ : Type} (lib : UUTIDGenerator U σ) (size : Nat) (gen : σ)
    (result : Vector) : BatchState σ :=
  TsidScalarFunLoop lib 0 size { gen := gen, calls := 0, result := result }

/-- The generator state after `k` calls of `new_id`. -/
def genAfter {U σ : Type} (lib : UUTIDGenerator U σ) : Nat → σ → σ
  | 0, g => g
  | k + 1, g => genAfter lib k (lib.new_id g).2

/-! ## `LoadInternal`: registration -/

/-- The host logical types the extension uses. -/
inductive LogicalType where
  | VARCHAR
  | TIMESTAMP
  deriving DecidableEq

/-- The host enumeration `FunctionStability`. -/
inductive FunctionStability where
  | CONSISTENT
  | VOLATILE
  | CONSISTENT_WITHIN_QUERY
  deriving DecidableEq

/-- The implementation a scalar function is bound to. -/
inductive FunctionImpl where
  | TsidScalarFun
  | TsidToTimestampScalarFun
  deriving DecidableEq

/-- The host class `ScalarFunction`, with the fields the extension sets. -/
structure ScalarFunction where
  name : String
  arguments : List LogicalType
  return_type : LogicalType
  function : FunctionImpl
  stability : FunctionStability
  deriving DecidableEq

/-- The `ScalarFunction` constructor without a name: the name is empty and the
stability is the default, `CONSISTENT`. -/
def ScalarFunction.unnamed (arguments : List LogicalType) (return_type : LogicalType)
    (function : FunctionImpl) : ScalarFunction :=
  { name := "", arguments := arguments, return_type := return_type, function := function,
    stability := FunctionStability.CONSISTENT }

/-- The `ScalarFunction` constructor with a name; the stability is the default. -/
def ScalarFunction.named (name : String) (arguments : List LogicalType)
    (return_type : LogicalType) (function : FunctionImpl) : ScalarFunction :=
  { name := name, arguments := arguments, return_type := return_type, function := function,
    stability := FunctionStability.CONSISTENT }

/-- The host class `ScalarFunctionSet`: a name and the overloads added to it. -/
structure ScalarFunctionSet where
  name : String
  functions : List ScalarFunction
  deriving DecidableEq

/-- `ScalarFunctionSet::AddFunction`. -/
def ScalarFunctionSet.AddFunction (s : ScalarFunctionSet) (f : ScalarFunction) :
    ScalarFunctionSet :=
  { s with functions := s.functions ++ [f] }

/-- The host class `FunctionDescription`. -/
structure FunctionDescription where
  parameter_names : List String
  parameter_types : List LogicalType
  description : String
  examples : List String
  categories : List String
  deriving DecidableEq

/-- The host class `CreateScalarFunctionInfo`. -/
structure CreateScalarFunctionInfo where
  name : String
  functions : ScalarFunctionSet
  descriptions : List FunctionDescription
  deriving DecidableEq

/-- The constructor `CreateScalarFunctionInfo(ScalarFunctionSet)`: the entry and
every overload take the name of the set. -/
def CreateScalarFunctionInfo.ofSet (s : ScalarFunctionSet) : CreateScalarFunctionInfo :=
  { name := s.name
    functions := { s with functions := s.functions.map fun f => { f with name := s.name } }
    descriptions := [] }

/-- The host `ExtensionLoader`, as the list of entries registered so far. -/
structure ExtensionLoader where
  registered : List CreateScalarFunctionInfo
  deriving DecidableEq

/-- `ExtensionLoader::RegisterFunction`. -/
def ExtensionLoader.RegisterFunction (l : ExtensionLoader) (info : CreateScalarFunctionInfo) :
    ExtensionLoader :=
  { registered := l.registered ++ [info] }

/-- The function `LoadInternal`. -/
def LoadInternal (loader : ExtensionLoader) : ExtensionLoader :=
  -- Register tsid() function
  let tsid_fun := ScalarFunction.unnamed [] LogicalType.VARCHAR FunctionImpl.TsidScalarFun
  let tsid_fun := { tsid_fun with stability := FunctionStability.VOLATILE }
  let tsid_set : ScalarFunctionSet := { name := "tsid", functions := [] }
  let tsid_set := tsid_set.AddFunction tsid_fun
  let tsid_info := CreateScalarFunctionInfo.ofSet tsid_set
  let tsid_desc : FunctionDescription :=
    { parameter_names := []
      parameter_types := []
      description := "Generates a new Time-Sorted Unique Identifier (TSID). " ++
        "TSIDs are chronologically sortable 128-bit unique identifiers " ++
        "that embed a timestamp, making them ideal for distributed systems " ++
        "and time-series data."
      examples := ["tsid()"]
      categories := ["uuid"] }
  let tsid_info := { tsid_info with descriptions := tsid_info.descriptions ++ [tsid_desc] }
  let loader := loader.RegisterFunction tsid_info
  -- Register tsid_to_timestamp() function
  let tsid_to_ts_fun := ScalarFunction.named "tsid_to_timestamp" [LogicalType.VARCHAR]
    LogicalType.TIMESTAMP FunctionImpl.TsidToTimestampScalarFun
  let tsid_to_ts_set : ScalarFunctionSet := { name := "tsid_to_timestamp", functions := [] }
  let tsid_to_ts_set := tsid_to_ts_set.AddFunction tsid_to_ts_fun
  let tsid_to_ts_info := CreateScalarFunctionInfo.ofSet tsid_to_ts_set
  let tsid_to_ts_desc : FunctionDescription :=
    { parameter_names := ["tsid"]
      parameter_types := [LogicalType.VARCHAR]
      description := "Extracts the embedded timestamp from a TSID. " ++
        "Returns the timestamp that was recorded when the TSID was generated."
      examples := ["tsid_to_timestamp('0193b9c8d23d7192bc1cc82b43e6e8f3')"]
      categories := ["uuid"] }
  let tsid_to_ts_info :=
    { tsid_to_ts_info with descriptions := tsid_to_ts_info.descriptions ++ [tsid_to_ts_desc] }
  loader.RegisterFunction tsid_to_ts_info

/-- The signature under which a registered overload is visible to queries. -/
structure Binding where
  name : String
  arguments : List LogicalType
  return_type : LogicalType
  function : FunctionImpl
  stability : FunctionStability
  deriving DecidableEq

/-- The bindings a loader exposes: every overload of every registered entry. -/
def ExtensionLoader.bindings (l : ExtensionLoader) : List Binding :=
  l.registered.flatMap fun info =>
    info.functions.functions.map fun f =>
      { name := f.name, arguments := f.arguments, return_type := f.return_type,
        function := f.function, stability := f.stability }

/-! ## The identifier codec of the design document -/

/-- Modelled from the spec: the error taxonomy `FormatError` of the decoder (§7);
`uutid.hpp` is not among the sources. -/
inductive FormatError where
  | InvalidLength
  | InvalidCharacter
  deriving DecidableEq

/-- Modelled from the spec: the type `Identifier` of `uutid.hpp`, an opaque 128-bit
value (§3). -/
abbrev Identifier := Fin (2 ^ 128)

/-- Modelled from the spec: the type `Timestamp` of `uutid.hpp`, a count of
milliseconds since the UNIX epoch (§3). -/
abbrev Timestamp := Nat

/-- Modelled from the spec: the constants of the bit layout that §3 fixes without
giving their values (`uutid.hpp` is not among the sources): the 4-bit version
marker, the 2-bit variant marker, and how many low-order bits of the 74-bit
uniqueness payload hold the sequence counter. -/
structure Layout where
  version : Fin 16
  variant : Fin 4
  seqBits : Fin 75
  deriving DecidableEq

/-- Modelled from the spec: the uniqueness payload of `pack` in `uutid.hpp`, bits
[73:0] (§3, §4.3): the sequence counter in the low-order `seqBits` bits, the
caller's randomness in the remaining high-order bits. -/
def payload (L : Layout) (sequence randomness : Nat) : Nat :=
  (randomness % 2 ^ (74 - L.seqBits.val)) * 2 ^ L.seqBits.val + sequence % 2 ^ L.seqBits.val

/-- Modelled from the spec: the bits placed by `pack` in `uutid.hpp` (§3): the
timestamp in [127:80], the version marker in [79:76], the variant marker in
[75:74], the uniqueness payload in [73:0]. -/
def packBits (L : Layout) (timestamp : Timestamp) (sequence randomness : Nat) : Nat :=
  (timestamp % 2 ^ 48) * 2 ^ 80 + L.version.val * 2 ^ 76 + L.variant.val * 2 ^ 74 +
    payload L sequence randomness

/-- Modelled from the spec: the operation `pack` of `uutid.hpp` (§4.3),
deterministic bit placement per the layout of §3. -/
def pack (L : Layout) (timestamp : Timestamp) (sequence randomness : Nat) : Identifier :=
  ⟨packBits L timestamp sequence randomness % 2 ^ 128, Nat.mod_lt _ (Nat.two_pow_pos 128)⟩

/-- Modelled from the spec: the operation `unpack_timestamp` of `uutid.hpp` (§4.3),
which extracts bits [127:80] only. -/
def unpack_timestamp (id : Identifier) : Timestamp :=
  id.val / 2 ^ 80

/-- Modelled from the spec: one lowercase hexadecimal digit of the text form
written by `uutid.hpp` (§4.4). -/
def hexChar (d : Nat) : Char :=
  if d < 10 then Char.ofNat (48 + d) else Char.ofNat (87 + d)

/-- Modelled from the spec: the `n` low-order hexadecimal digits of `v`, most
significant first, padded with zeros, as `encode` of `uutid.hpp` writes them (§4.4). -/
def hexDigits : Nat → Nat → List Char
  | 0, _ => []
  | n + 1, v => hexChar (v / 16 ^ n % 16) :: hexDigits n v

/-- Modelled from the spec: the operation `encode` of `uutid.hpp` (§4.4): exactly 32
lowercase hexadecimal characters, most-significant byte first, zero-padded. -/
def encode (id : Identifier) : String :=
  String.mk (hexDigits 32 id.val)

/-- Modelled from the spec: the value of one input character accepted by `decode`
of `uutid.hpp` (§4.4): `[0-9a-f]` always, `[A-F]` too when the implementer chose a
case-insensitive input. -/
def hexValue? (caseInsensitive : Bool) (c : Char) : Option Nat :=
  let n := c.toNat
  if 48 ≤ n ∧ n ≤ 57 then some (n - 48)
  else if 97 ≤ n ∧ n ≤ 102 then some (n - 87)
  else if caseInsensitive = true ∧ 65 ≤ n ∧ n ≤ 70 then some (n - 55)
  else none

/-- Modelled from the spec: the big-endian accumulation of hexadecimal digits in
`decode` of `uutid.hpp` (§4.4); `none` at the first character that is not a digit. -/
def parseHex (caseInsensitive : Bool) : List Char → Nat → Option Nat
  | [], acc => some acc
  | c :: cs, acc =>
    match hexValue? caseInsensitive c with
    | none => none
    | some d => parseHex caseInsensitive cs (acc * 16 + d)

/-- Modelled from the spec: the operation `decode` of `uutid.hpp` (§4.4):
`InvalidLength` unless the text has exactly 32 characters, `InvalidCharacter` when
a character is not a hexadecimal digit; the marker bits are not validated. -/
def decode (caseInsensitive : Bool) (s : String) : Except FormatError Identifier :=
  if s.length ≠ 32 then .error FormatError.InvalidLength
  else
    match parseHex caseInsensitive s.data 0 with
    | none => .error FormatError.InvalidCharacter
    | some v => .ok ⟨v % 2 ^ 128, Nat.mod_lt _ (Nat.two_pow_pos 128)⟩

/-- Modelled from the spec: the operation `extract_timestamp` of `uutid.hpp`
(§4.5), `decode` followed by `unpack_timestamp`. -/
def extract_timestamp (caseInsensitive : Bool) (s : String) : Except FormatError Timestamp :=
  match decode caseInsensitive s with
  | .error e => .error e
  | .ok id => .ok (unpack_timestamp id)

/-- Modelled from the spec: the text `generate` of `uutid.hpp` (§4.5) produces at
clock reading `timestamp` with the given sequence number and randomness draw:
`pack` followed by `encode`. -/
def generate_at (L : Layout) (timestamp : Timestamp) (sequence randomness : Nat) : String :=
  encode (pack L timestamp sequence randomness)

/-- Modelled from the spec: `UUTID::from_string` and `UUTID::time` of `uutid.hpp`
as the design document gives them: `decode`, and the millisecond timestamp of
`unpack_timestamp` as a time point with millisecond ticks. -/
def specReader (caseInsensitive : Bool) : UUTIDReader Identifier FormatError :=
  { from_string := decode caseInsensitive
    time := fun id => .ok (unpack_timestamp id : Nat)
    period := Period.milli }

/-- A character in `[0-9a-f]`. -/
def LowerHex (c : Char) : Prop :=
  ('0' ≤ c ∧ c ≤ '9') ∨ ('a' ≤ c ∧ c ≤ 'f')

instance (c : Char) : Decidable (LowerHex c) := by
  unfold LowerHex; infer_instance

/-- A hexadecimal digit of either case, `[0-9a-fA-F]`. -/
def IsHexDigit (c : Char) : Prop :=
  LowerHex c ∨ ('A' ≤ c ∧ c ≤ 'F')

instance (c : Char) : Decidable (IsHexDigit c) := by
  unfold IsHexDigit; infer_instance

/-- The text is well formed: exactly 32 characters, each in `[0-9a-f]`. -/
def WellFormed (s : String) : Prop :=
  s.length = 32 ∧ ∀ c ∈ s.data, LowerHex c

/-- One step of reading a big-endian hexadecimal number: shift the accumulator by
one digit and add the value of the character (zero when it is not a lowercase
digit). -/
def hexStep (acc : Nat) (c : Char) : Nat :=
  acc * 16 + ((hexValue? false c).getD 0)

/-- The big-endian unsigned integer written by a list of lowercase hexadecimal
digits. -/
def hexNumber (cs : List Char) : Nat :=
  cs.foldl hexStep 0

instance (s : String) : Decidable (WellFormed s) := by
  unfold WellFormed; infer_instance

/-- The identifier written "0193b9c8d23d7192bc1cc82b43e6e8f3", the literal of the
design document. -/
def exampleIdentifier : Identifier :=
  ⟨0x0193b9c8d23d7192bc1cc82b43e6e8f3, by decide⟩

/-- The layout used in the examples: version marker 7, variant marker 2, and the
12 sequence bits / 62 random bits split the design document suggests. -/
def exampleLayout : Layout :=
  { version := 7, variant := 2, seqBits := 12 }

/-- A generator used in the examples: its state is a counter, every call returns
the counter as the identifier and increments it. -/
def counterGenerator : UUTIDGenerator Nat Nat :=
  { new_id := fun n => (n, n + 1)
    to_string := fun u => generate_at exampleLayout u 0 0 }

/-- A result vector with every row empty and null. -/
def Vector.blank : Vector :=
  { data := fun _ => "", validity := fun _ => false }

/-! ## Results on the extension source -/

theorem constructMessage_invalid_format (s : String) :
    ConstructMessage "Invalid TSID format: %s" [s] = "Invalid TSID format: " ++ s := by
  apply String.ext
  simp [ConstructMessage, formatChars, String.data_append]

theorem wrap64_of_fits (x : Int) (h : fitsInt64 x) : wrap64 x = x := by
  unfold fitsInt64 at h
  unfold wrap64
  omega

theorem duration_cast_milli (m : Int) :
    duration_cast_microseconds Period.milli m = wrap64 (m * 1000) := by
  have hg : Nat.gcd (1 * 1000000) 1000 = 1000 := by decide
  simp [duration_cast_microseconds, Period.milli, hg]

theorem duration_cast_milli_exact (m : Int) (h0 : 0 ≤ m) (h1 : m < 2 ^ 48) :
    duration_cast_microseconds Period.milli m = 1000 * m := by
  rw [duration_cast_milli, wrap64_of_fits]
  · ring
  · unfold fitsInt64
    constructor <;> omega

theorem row_of_decoded {U ε : Type} (lib : UUTIDReader U ε) (s : String) (id : U) (tp : Int)
    (hd : lib.from_string s = .ok id) (ht : lib.time id = .ok tp) :
    TsidToTimestampScalarFun.lambda lib s = .ok ⟨duration_cast_microseconds lib.period tp⟩ := by
  simp [TsidToTimestampScalarFun.lambda, hd, ht]

theorem row_of_decode_error {U ε : Type} (lib : UUTIDReader U ε) (s : String) (e : ε)
    (hd : lib.from_string s = .error e) :
    TsidToTimestampScalarFun.lambda lib s = .error ⟨"Invalid TSID format: " ++ s⟩ := by
  simp [TsidToTimestampScalarFun.lambda, hd, constructMessage_invalid_format]

theorem row_of_time_error {U ε : Type} (lib : UUTIDReader U ε) (s : String) (id : U) (e : ε)
    (hd : lib.from_string s = .ok id) (ht : lib.time id = .error e) :
    TsidToTimestampScalarFun.lambda lib s = .error ⟨"Invalid TSID format: " ++ s⟩ := by
  simp [TsidToTimestampScalarFun.lambda, hd, ht, constructMessage_invalid_format]

theorem loop_calls {U σ : Type} (lib : UUTIDGenerator U σ) (k : Nat) :
    ∀ (i : Nat) (st : BatchState σ),
      (TsidScalarFunLoop lib i k st).calls = st.calls + k ∧
      (TsidScalarFunLoop lib i k st).gen = genAfter lib k st.gen := by
  induction k with
  | zero => intro i st; simp [TsidScalarFunLoop, genAfter]
  | succ k ih =>
    intro i st
    simp only [TsidScalarFunLoop, genAfter]
    obtain ⟨h1, h2⟩ := ih (i + 1)
      { gen := (lib.new_id st.gen).2, calls := st.calls + 1,
        result := st.result.write i (lib.to_string (lib.new_id st.gen).1) }
    refine ⟨?_, h2⟩
    rw [h1]; simp only []; omega

theorem loop_outside {U σ : Type} (lib : UUTIDGenerator U σ) (k : Nat) :
    ∀ (i : Nat) (st : BatchState σ) (j : Nat), (j < i ∨ i + k ≤ j) →
      (TsidScalarFunLoop lib i k st).result.data j = st.result.data j ∧
      (TsidScalarFunLoop lib i k st).result.validity j = st.result.validity j := by
  induction k with
  | zero => intro i st j _; simp [TsidScalarFunLoop]
  | succ k ih =>
    intro i st j hj
    simp only [TsidScalarFunLoop]
    have hne : j ≠ i := by omega
    obtain ⟨h1, h2⟩ := ih (i + 1)
      { gen := (lib.new_id st.gen).2, calls := st.calls + 1,
        result := st.result.write i (lib.to_string (lib.new_id st.gen).1) } j (by omega)
    rw [h1, h2]
    simp [Vector.write, hne]

theorem loop_inside {U σ : Type} (lib : UUTIDGenerator U σ) (k : Nat) :
    ∀ (i : Nat) (st : BatchState σ) (j : Nat), j < k →
      (TsidScalarFunLoop lib i k st).result.data (i + j) =
        lib.to_string (lib.new_id (genAfter lib j st.gen)).1 ∧
      (TsidScalarFunLoop lib i k st).result.validity (i + j) = true := by
  induction k with
  | zero => intro i st j hj; omega
  | succ k ih =>
    intro i st j hj
    simp only [TsidScalarFunLoop]
    cases j with
    | zero =>
      obtain ⟨h1, h2⟩ := loop_outside lib k (i + 1)
        { gen := (lib.new_id st.gen).2, calls := st.calls + 1,
          result := st.result.write i (lib.to_string (lib.new_id st.gen).1) } i (by omega)
      simp only [Nat.add_zero, genAfter]
      rw [h1, h2]
      simp [Vector.write]
    | succ j =>
      obtain ⟨h1, h2⟩ := ih (i + 1)
        { gen := (lib.new_id st.gen).2, calls := st.calls + 1,
          result := st.result.write i (lib.to_string (lib.new_id st.gen).1) } j (by omega)
      have e : i + (j + 1) = i + 1 + j := by omega
      rw [e, h1, h2]
      simp [genAfter]

/-! ## Results on the identifier codec -/

theorem hexValue_hexChar (ci : Bool) (d : Nat) (h : d < 16) : hexValue? ci (hexChar d) = some d := by
  interval_cases d <;> cases ci <;> rfl

theorem hexChar_lower (d : Nat) (h : d < 16) :
    ('0' ≤ hexChar d ∧ hexChar d ≤ '9') ∨ ('a' ≤ hexChar d ∧ hexChar d ≤ 'f') := by
  interval_cases d <;> decide

theorem hexDigits_length (n v : Nat) : (hexDigits n v).length = n := by
  induction n with
  | zero => rfl
  | succ n ih => simp [hexDigits, ih]

theorem parseHex_hexDigits (ci : Bool) (n : Nat) :
    ∀ v acc, parseHex ci (hexDigits n v) acc = some (acc * 16 ^ n + v % 16 ^ n) := by
  induction n with
  | zero => intro v acc; simp [hexDigits, parseHex, Nat.mod_one]
  | succ n ih =>
    intro v acc
    have hd : v / 16 ^ n % 16 < 16 := Nat.mod_lt _ (by decide)
    simp only [hexDigits, parseHex, hexValue_hexChar ci _ hd, ih]
    rw [Nat.mod_pow_succ (x := v) (b := 16) (k := n)]
    congr 1
    ring

theorem decode_of_parse (ci : Bool) (s : String) (v : Nat) (hl : s.length = 32)
    (hp : parseHex ci s.data 0 = some v) :
    decode ci s = .ok ⟨v % 2 ^ 128, Nat.mod_lt _ (Nat.two_pow_pos 128)⟩ := by
  unfold decode
  rw [if_neg (by simp [hl]), hp]

theorem decode_of_parse_none (ci : Bool) (s : String) (hl : s.length = 32)
    (hp : parseHex ci s.data 0 = none) :
    decode ci s = .error FormatError.InvalidCharacter := by
  unfold decode
  rw [if_neg (by simp [hl]), hp]

theorem decode_of_length (ci : Bool) (s : String) (hl : s.length ≠ 32) :
    decode ci s = .error FormatError.InvalidLength := by
  unfold decode
  rw [if_pos hl]

theorem encode_length (id : Identifier) : (encode id).length = 32 := by
  simp [encode, String.length, hexDigits_length]

theorem decode_encode (ci : Bool) (id : Identifier) : decode ci (encode id) = .ok id := by
  have hv : id.val % 16 ^ 32 = id.val := Nat.mod_eq_of_lt id.isLt
  have hp : parseHex ci (encode id).data 0 = some id.val := by
    simp only [encode, parseHex_hexDigits, hv]
    simp
  rw [decode_of_parse ci _ _ (encode_length id) hp]
  congr 1
  apply Fin.ext
  exact Nat.mod_eq_of_lt id.isLt

theorem hexValue_of_lowerHex (ci : Bool) (c : Char) (h : LowerHex c) :
    hexValue? ci c = some ((hexValue? false c).getD 0) ∧ (hexValue? false c).getD 0 < 16 := by
  have hn : (48 ≤ c.toNat ∧ c.toNat ≤ 57) ∨ (97 ≤ c.toNat ∧ c.toNat ≤ 102) := by
    rcases h with ⟨h1, h2⟩ | ⟨h1, h2⟩
    · left; rw [Char.le_def] at h1 h2; exact ⟨h1, h2⟩
    · right; rw [Char.le_def] at h1 h2; exact ⟨h1, h2⟩
  rcases hn with ⟨h1, h2⟩ | ⟨h1, h2⟩
  · have hc : 48 ≤ c.toNat ∧ c.toNat ≤ 57 := ⟨h1, h2⟩
    simp only [hexValue?, hc, and_self, if_true, Option.getD_some]
    exact ⟨trivial, by omega⟩
  · have hc : ¬ (48 ≤ c.toNat ∧ c.toNat ≤ 57) := by omega
    have hc2 : 97 ≤ c.toNat ∧ c.toNat ≤ 102 := ⟨h1, h2⟩
    simp only [hexValue?, hc, hc2, and_self, if_true, if_false, Option.getD_some]
    exact ⟨trivial, by omega⟩

theorem hexNumber_eq (cs : List Char) : hexNumber cs = cs.foldl hexStep 0 := rfl

theorem parseHex_of_lowerHex (ci : Bool) (cs : List Char) :
    ∀ acc, (∀ c ∈ cs, LowerHex c) → parseHex ci cs acc = some (cs.foldl hexStep acc) := by
  induction cs with
  | nil => intro acc _; rfl
  | cons c cs ih =>
    intro acc h
    have hc := (hexValue_of_lowerHex ci c (h c (List.mem_cons_self c cs))).1
    simp only [parseHex, hc, List.foldl_cons]
    exact ih _ (fun x hx => h x (List.mem_cons_of_mem c hx))

theorem parseHex_none_of_mem (ci : Bool) (cs : List Char) :
    ∀ acc, (∃ c ∈ cs, hexValue? ci c = none) → parseHex ci cs acc = none := by
  induction cs with
  | nil => intro acc h; obtain ⟨c, hc, _⟩ := h; cases hc
  | cons c cs ih =>
    intro acc h
    cases hv : hexValue? ci c with
    | none => simp [parseHex, hv]
    | some d =>
      simp only [parseHex, hv]
      apply ih
      obtain ⟨x, hx, hxn⟩ := h
      rcases List.mem_cons.mp hx with rfl | hx2
      · rw [hv] at hxn; cases hxn
      · exact ⟨x, hx2, hxn⟩

theorem foldl_hexStep_acc (cs : List Char) :
    ∀ acc, cs.foldl hexStep acc = acc * 16 ^ cs.length + cs.foldl hexStep 0 := by
  induction cs with
  | nil => intro acc; simp
  | cons c cs ih =>
    intro acc
    simp only [List.foldl_cons, List.length_cons]
    rw [ih (hexStep acc c), ih (hexStep 0 c)]
    simp only [hexStep]
    ring

theorem foldl_hexStep_lt (cs : List Char) (h : ∀ c ∈ cs, LowerHex c) :
    cs.foldl hexStep 0 < 16 ^ cs.length := by
  induction cs with
  | nil => simp
  | cons c cs ih =>
    have hc := (hexValue_of_lowerHex false c (h c (List.mem_cons_self c cs))).2
    have ih2 := ih (fun x hx => h x (List.mem_cons_of_mem c hx))
    simp only [List.foldl_cons, List.length_cons]
    rw [foldl_hexStep_acc]
    simp only [hexStep, Nat.zero_mul, Nat.zero_add]
    have hp : 16 ^ (cs.length + 1) = 16 * 16 ^ cs.length := by ring
    rw [hp]
    have : (hexValue? false c).getD 0 * 16 ^ cs.length ≤ 15 * 16 ^ cs.length :=
      Nat.mul_le_mul_right _ (by omega)
    omega

theorem hexNumber_lt (cs : List Char) (h : ∀ c ∈ cs, LowerHex c) :
    hexNumber cs < 16 ^ cs.length :=
  foldl_hexStep_lt cs h

theorem hexNumber_append (a b : List Char) :
    hexNumber (a ++ b) = hexNumber a * 16 ^ b.length + hexNumber b := by
  simp only [hexNumber_eq, List.foldl_append]
  rw [foldl_hexStep_acc]

theorem hexNumber_append_div (a b : List Char) (h : ∀ c ∈ b, LowerHex c) :
    hexNumber (a ++ b) / 16 ^ b.length = hexNumber a := by
  have hlt := hexNumber_lt b h
  have hpos : 0 < 16 ^ b.length := Nat.pow_pos (by decide)
  rw [hexNumber_append, Nat.add_comm, Nat.add_mul_div_right _ _ hpos, Nat.div_eq_of_lt hlt,
    Nat.zero_add]

theorem hexNumber_take (cs : List Char) (k : Nat) (h : ∀ c ∈ cs, LowerHex c) :
    hexNumber cs / 16 ^ (cs.length - k) = hexNumber (cs.take k) := by
  have hlen : (cs.drop k).length = cs.length - k := List.length_drop k cs
  have key := hexNumber_append_div (cs.take k) (cs.drop k)
    (fun c hc => h c (List.mem_of_mem_drop hc))
  rw [List.take_append_drop, hlen] at key
  exact key

theorem wellFormed_iff (s : String) : WellFormed s ↔ s.length = 32 ∧ ∀ c ∈ s.data, LowerHex c :=
  Iff.rfl

theorem decode_of_wellFormed (ci : Bool) (s : String) (h : WellFormed s) :
    ∃ id : Identifier, decode ci s = .ok id ∧ id.val = hexNumber s.data := by
  obtain ⟨hl, hc⟩ := h
  have hp := parseHex_of_lowerHex ci s.data 0 hc
  have hlt : hexNumber s.data < 2 ^ 128 := by
    have := hexNumber_lt s.data hc
    have hl2 : s.data.length = 32 := hl
    rw [hl2] at this
    exact this
  refine ⟨⟨hexNumber s.data % 2 ^ 128, Nat.mod_lt _ (Nat.two_pow_pos 128)⟩, ?_, ?_⟩
  · exact decode_of_parse ci s _ hl hp
  · exact Nat.mod_eq_of_lt hlt

theorem extract_of_wellFormed (ci : Bool) (s : String) (h : WellFormed s) :
    extract_timestamp ci s = .ok (hexNumber (s.data.take 12)) := by
  obtain ⟨id, hd, hv⟩ := decode_of_wellFormed ci s h
  obtain ⟨hl, hc⟩ := h
  have hl2 : s.data.length = 32 := hl
  have := hexNumber_take s.data 12 hc
  rw [hl2] at this
  simp only [extract_timestamp, hd, unpack_timestamp, hv]
  congr 1


theorem payload_lt (L : Layout) (sequence randomness : Nat) :
    payload L sequence randomness < 2 ^ 74 := by
  have hk : L.seqBits.val ≤ 74 := by have := L.seqBits.isLt; omega
  have hs : sequence % 2 ^ L.seqBits.val < 2 ^ L.seqBits.val := Nat.mod_lt _ (Nat.two_pow_pos _)
  have hr : randomness % 2 ^ (74 - L.seqBits.val) + 1 ≤ 2 ^ (74 - L.seqBits.val) :=
    Nat.mod_lt _ (Nat.two_pow_pos _)
  have hm := Nat.mul_le_mul_right (2 ^ L.seqBits.val) hr
  have hp : 2 ^ (74 - L.seqBits.val) * 2 ^ L.seqBits.val = 2 ^ 74 := by
    rw [← Nat.pow_add, Nat.sub_add_cancel hk]
  rw [hp, Nat.add_mul, Nat.one_mul] at hm
  unfold payload
  omega

theorem pack_val (L : Layout) (timestamp sequence randomness : Nat) :
    (pack L timestamp sequence randomness).val = packBits L timestamp sequence randomness := by
  have hp := payload_lt L sequence randomness
  have hv := L.version.isLt
  have hr := L.variant.isLt
  have ht : timestamp % 2 ^ 48 < 2 ^ 48 := Nat.mod_lt _ (Nat.two_pow_pos 48)
  show packBits L timestamp sequence randomness % 2 ^ 128 = _
  apply Nat.mod_eq_of_lt
  unfold packBits
  omega

theorem unpack_pack (L : Layout) (timestamp sequence randomness : Nat) :
    unpack_timestamp (pack L timestamp sequence randomness) = timestamp % 2 ^ 48 := by
  have hp := payload_lt L sequence randomness
  have hv := L.version.isLt
  have hr := L.variant.isLt
  have hrest : L.version.val * 2 ^ 76 + L.variant.val * 2 ^ 74 +
      payload L sequence randomness < 2 ^ 80 := by omega
  have hsplit : packBits L timestamp sequence randomness =
      (L.version.val * 2 ^ 76 + L.variant.val * 2 ^ 74 + payload L sequence randomness) +
        timestamp % 2 ^ 48 * 2 ^ 80 := by
    unfold packBits; omega
  unfold unpack_timestamp
  rw [pack_val, hsplit, Nat.add_mul_div_right _ _ (Nat.two_pow_pos 80),
    Nat.div_eq_of_lt hrest, Nat.zero_add]

theorem hexDigits_getElem (n : Nat) :
    ∀ (v i : Nat), i < n → (hexDigits n v)[i]? = some (hexChar (v / 16 ^ (n - 1 - i) % 16)) := by
  induction n with
  | zero => intro v i h; omega
  | succ n ih =>
    intro v i h
    cases i with
    | zero => simp [hexDigits]
    | succ i =>
      have e : n + 1 - 1 - (i + 1) = n - 1 - i := by omega
      simp only [hexDigits, List.getElem?_cons_succ, e]
      exact ih v i (by omega)

theorem hexDigits_lowerHex (n v : Nat) : ∀ c ∈ hexDigits n v, LowerHex c := by
  induction n with
  | zero => intro c hc; cases hc
  | succ n ih =>
    intro c hc
    simp only [hexDigits, List.mem_cons] at hc
    rcases hc with rfl | hc
    · exact hexChar_lower _ (Nat.mod_lt _ (by decide))
    · exact ih c hc

theorem lowerHex_iff (c : Char) :
    LowerHex c ↔ (48 ≤ c.toNat ∧ c.toNat ≤ 57) ∨ (97 ≤ c.toNat ∧ c.toNat ≤ 102) :=
  Iff.rfl

theorem isHexDigit_iff (c : Char) :
    IsHexDigit c ↔ ((48 ≤ c.toNat ∧ c.toNat ≤ 57) ∨ (97 ≤ c.toNat ∧ c.toNat ≤ 102)) ∨
      (65 ≤ c.toNat ∧ c.toNat ≤ 70) :=
  Iff.rfl

theorem hexValue_none_of_not_hex (ci : Bool) (c : Char) (h : ¬ IsHexDigit c) :
    hexValue? ci c = none := by
  rw [isHexDigit_iff] at h
  have h1 : ¬ (48 ≤ c.toNat ∧ c.toNat ≤ 57) := by omega
  have h2 : ¬ (97 ≤ c.toNat ∧ c.toNat ≤ 102) := by omega
  have h3 : ¬ (65 ≤ c.toNat ∧ c.toNat ≤ 70) := by omega
  simp [hexValue?, h1, h2, h3]

theorem hexValue_none_of_not_lower (c : Char) (h : ¬ LowerHex c) :
    hexValue? false c = none := by
  rw [lowerHex_iff] at h
  have h1 : ¬ (48 ≤ c.toNat ∧ c.toNat ≤ 57) := by omega
  have h2 : ¬ (97 ≤ c.toNat ∧ c.toNat ≤ 102) := by omega
  simp [hexValue?, h1, h2]

theorem encode_wellFormed (id : Identifier) : WellFormed (encode id) :=
  ⟨encode_length id, hexDigits_lowerHex 32 id.val⟩

theorem hexNumber_encode (id : Identifier) : hexNumber (encode id).data = id.val := by
  have hp := parseHex_of_lowerHex false (encode id).data 0 (hexDigits_lowerHex 32 id.val)
  have hq : parseHex false (encode id).data 0 = some (0 * 16 ^ 32 + id.val % 16 ^ 32) :=
    parseHex_hexDigits false 32 id.val 0
  rw [hp] at hq
  have hv : id.val % 16 ^ 32 = id.val := Nat.mod_eq_of_lt id.isLt
  rw [hv, Nat.zero_mul, Nat.zero_add] at hq
  exact Option.some.inj hq

theorem row_spec_of_decode (ci : Bool) (s : String) (id : Identifier)
    (hd : decode ci s = .ok id) :
    TsidToTimestampScalarFun.lambda (specReader ci) s = .ok ⟨1000 * (unpack_timestamp id : Nat)⟩ := by
  have hlt : unpack_timestamp id < 2 ^ 48 := by
    unfold unpack_timestamp
    exact Nat.div_lt_of_lt_mul id.isLt
  have h := row_of_decoded (specReader ci) s id (unpack_timestamp id : Nat) hd rfl
  rw [h]
  have hc := duration_cast_milli_exact (unpack_timestamp id : Nat) (by omega) (by exact_mod_cast hlt)
  show Except.ok (timestamp_t.mk (duration_cast_microseconds Period.milli _)) = _
  rw [hc]

/-! ## The claims -/

/-- C1: the per-row function of `TsidToTimestampScalarFun` is decode-then-read-time.
It fails exactly when `from_string` fails or `time` fails on the decoded identifier;
when both succeed it returns the identifier's time converted to microseconds; and
when it fails it returns no value at all. -/
theorem row_is_decode_then_time {U ε : Type} (lib : UUTIDReader U ε) (s : String) :
    ((∃ e, TsidToTimestampScalarFun.lambda lib s = .error e) ↔
      ((∃ e, lib.from_string s = .error e) ∨
        ∃ id e, lib.from_string s = .ok id ∧ lib.time id = .error e)) ∧
    (∀ id tp, lib.from_string s = .ok id → lib.time id = .ok tp →
      TsidToTimestampScalarFun.lambda lib s = .ok ⟨duration_cast_microseconds lib.period tp⟩) ∧
    ((∃ e, TsidToTimestampScalarFun.lambda lib s = .error e) → ∀ v, TsidToTimestampScalarFun.lambda lib s ≠ .ok v) := by
  refine ⟨?_, ?_, ?_⟩
  · constructor
    · intro hfail
      cases hd : lib.from_string s with
      | error e => exact Or.inl ⟨e, rfl⟩
      | ok id =>
        cases ht : lib.time id with
        | error e => exact Or.inr ⟨id, e, rfl, ht⟩
        | ok tp =>
          obtain ⟨e, he⟩ := hfail
          rw [row_of_decoded lib s id tp hd ht] at he
          cases he
    · intro h
      rcases h with ⟨e, hd⟩ | ⟨id, e, hd, ht⟩
      · exact ⟨_, row_of_decode_error lib s e hd⟩
      · exact ⟨_, row_of_time_error lib s id e hd ht⟩
  · intro id tp hd ht
    exact row_of_decoded lib s id tp hd ht
  · intro hfail v hv
    obtain ⟨e, he⟩ := hfail
    rw [he] at hv
    cases hv

/-- C1 at concrete inputs, with the codec of the design document: a well-formed text
yields its time, a text of 31 characters yields a failure and no value. -/
theorem row_is_decode_then_time_witness :
    TsidToTimestampScalarFun.lambda (specReader false) "0193b9c8d23d7192bc1cc82b43e6e8f3" =
      .ok ⟨1733988766269000⟩ ∧
    (∃ e, TsidToTimestampScalarFun.lambda (specReader false) "0193b9c8d23d7192bc1cc82b43e6e8f" = .error e) ∧
    (∀ v, TsidToTimestampScalarFun.lambda (specReader false) "0193b9c8d23d7192bc1cc82b43e6e8f" ≠ .ok v) :=
  ⟨(row_is_decode_then_time (specReader false) "0193b9c8d23d7192bc1cc82b43e6e8f3").2.1
      exampleIdentifier 1733988766269 rfl rfl,
    (row_is_decode_then_time (specReader false) "0193b9c8d23d7192bc1cc82b43e6e8f").1.2
      (Or.inl ⟨FormatError.InvalidLength, rfl⟩),
    (row_is_decode_then_time (specReader false) "0193b9c8d23d7192bc1cc82b43e6e8f").2.2
      ⟨_, rfl⟩⟩

/-- C2: whenever `from_string` fails on the input text, whatever the error, the
per-row function of `TsidToTimestampScalarFun` raises a `ConversionException` whose
message is exactly "Invalid TSID format: " followed by the input text; the message
is a function of the text alone. -/
theorem row_error_message {U ε : Type} (lib : UUTIDReader U ε) (s : String)
    (h : ∃ e, lib.from_string s = .error e) :
    TsidToTimestampScalarFun.lambda lib s = .error ⟨"Invalid TSID format: " ++ s⟩ := by
  obtain ⟨e, he⟩ := h
  exact row_of_decode_error lib s e he

/-- C2 at concrete inputs: a text of the wrong length and a text with a bad character
both give the message built from the text. -/
theorem row_error_message_witness :
    (decode false "0193b9c8" = .error FormatError.InvalidLength ∧
      TsidToTimestampScalarFun.lambda (specReader false) "0193b9c8" =
        .error ⟨"Invalid TSID format: 0193b9c8"⟩) ∧
    (decode false "0193b9c8d23d7192bc1cc82b43e6e8g3" = .error FormatError.InvalidCharacter ∧
      TsidToTimestampScalarFun.lambda (specReader false) "0193b9c8d23d7192bc1cc82b43e6e8g3" =
        .error ⟨"Invalid TSID format: 0193b9c8d23d7192bc1cc82b43e6e8g3"⟩) :=
  ⟨⟨rfl, row_error_message (specReader false) "0193b9c8" ⟨FormatError.InvalidLength, rfl⟩⟩,
    ⟨rfl, row_error_message (specReader false) "0193b9c8d23d7192bc1cc82b43e6e8g3"
      ⟨FormatError.InvalidCharacter, rfl⟩⟩⟩

/-- C3: round trip.  For every timestamp `t` below 2^48 milliseconds and every
sequence and randomness value, extracting the timestamp from the text generated at
`t` succeeds and gives `t`; the per-row function returns `1000 * t` microseconds;
and for a clock reading `u` in microseconds whose millisecond part is `t`, that is
`u` truncated to millisecond resolution. -/
theorem round_trip (ci : Bool) (L : Layout) (t sequence randomness : Nat) (ht : t < 2 ^ 48) :
    extract_timestamp ci (generate_at L t sequence randomness) = .ok t ∧
    TsidToTimestampScalarFun.lambda (specReader ci) (generate_at L t sequence randomness) =
      .ok ⟨1000 * (t : Int)⟩ ∧
    (∀ u : Nat, u / 1000 = t →
      TsidToTimestampScalarFun.lambda (specReader ci) (generate_at L (u / 1000) sequence randomness) =
        .ok ⟨(u : Int) - (u : Int) % 1000⟩) := by
  have hd : decode ci (generate_at L t sequence randomness) = .ok (pack L t sequence randomness) :=
    decode_encode ci _
  have hu : unpack_timestamp (pack L t sequence randomness) = t := by
    rw [unpack_pack, Nat.mod_eq_of_lt ht]
  have hrow := row_spec_of_decode ci _ _ hd
  rw [hu] at hrow
  refine ⟨?_, hrow, ?_⟩
  · simp only [extract_timestamp, hd, hu]
  · intro u hut
    rw [hut, hrow]
    congr 2
    omega

/-- C3 at a concrete timestamp. -/
theorem round_trip_witness :
    (1733988766269 : Nat) < 2 ^ 48 ∧
    extract_timestamp false (generate_at exampleLayout 1733988766269 5 77) =
      .ok 1733988766269 ∧
    TsidToTimestampScalarFun.lambda (specReader false) (generate_at exampleLayout 1733988766269 5 77) =
      .ok ⟨1000 * ((1733988766269 : Nat) : Int)⟩ ∧
    (∀ u : Nat, u / 1000 = 1733988766269 →
      TsidToTimestampScalarFun.lambda (specReader false) (generate_at exampleLayout (u / 1000) 5 77) =
        .ok ⟨(u : Int) - (u : Int) % 1000⟩) :=
  ⟨by decide, round_trip false exampleLayout 1733988766269 5 77 (by decide)⟩

/-- C4: for every well-formed text the extracted timestamp is 1000 times the
big-endian number written by the leading 12 hexadecimal characters, so its
millisecond value is that number; for "0193b9c8d23d7192bc1cc82b43e6e8f3" the
millisecond value is 0x0193b9c8d23d = 1733988766269. -/
theorem leading_twelve_digits (ci : Bool) (s : String) (h : WellFormed s) :
    extract_timestamp ci s = .ok (hexNumber (s.data.take 12)) ∧
    TsidToTimestampScalarFun.lambda (specReader ci) s = .ok ⟨1000 * (hexNumber (s.data.take 12) : Int)⟩ ∧
    (1000 * (hexNumber (s.data.take 12) : Int)) / 1000 = hexNumber (s.data.take 12) ∧
    extract_timestamp ci "0193b9c8d23d7192bc1cc82b43e6e8f3" = .ok 0x0193b9c8d23d ∧
    TsidToTimestampScalarFun.lambda (specReader ci) "0193b9c8d23d7192bc1cc82b43e6e8f3" =
      .ok ⟨1000 * 0x0193b9c8d23d⟩ ∧
    (0x0193b9c8d23d : Nat) = 1733988766269 := by
  have hx := extract_of_wellFormed ci s h
  obtain ⟨id, hd, _⟩ := decode_of_wellFormed ci s h
  have hrow := row_spec_of_decode ci s id hd
  have hid : unpack_timestamp id = hexNumber (s.data.take 12) := by
    simp only [extract_timestamp, hd] at hx
    exact Except.ok.inj hx
  rw [hid] at hrow
  refine ⟨hx, hrow, by omega, ?_, ?_, by decide⟩
  · cases ci <;> rfl
  · cases ci <;> rfl

/-- C4 at the literal of the design document. -/
theorem leading_twelve_digits_witness :
    WellFormed "0193b9c8d23d7192bc1cc82b43e6e8f3" ∧
    hexNumber ("0193b9c8d23d7192bc1cc82b43e6e8f3".data.take 12) = 1733988766269 ∧
    TsidToTimestampScalarFun.lambda (specReader false) "0193b9c8d23d7192bc1cc82b43e6e8f3" =
      .ok ⟨1000 * (hexNumber ("0193b9c8d23d7192bc1cc82b43e6e8f3".data.take 12) : Int)⟩ :=
  ⟨by decide, by decide,
    (leading_twelve_digits false "0193b9c8d23d7192bc1cc82b43e6e8f3" (by decide)).2.1⟩

/-- C5: `decode` validates its input.  A text whose length is not 32 fails with
`InvalidLength`; a text of 32 characters containing a character that is not a
hexadecimal digit fails with `InvalidCharacter` (and, when the input is read
case-sensitively, so does one containing any character outside `[0-9a-f]`); a text
of 32 characters in `[0-9a-f]` succeeds and keeps all 128 bits as written, marker
bits included.  The three examples of the design document behave so. -/
theorem decode_validates (ci : Bool) (s : String) :
    (s.length ≠ 32 → decode ci s = .error FormatError.InvalidLength) ∧
    (s.length = 32 → (∃ c ∈ s.data, ¬ IsHexDigit c) →
      decode ci s = .error FormatError.InvalidCharacter) ∧
    (s.length = 32 → (∃ c ∈ s.data, ¬ LowerHex c) →
      decode false s = .error FormatError.InvalidCharacter) ∧
    (WellFormed s → ∃ id : Identifier, decode ci s = .ok id ∧ id.val = hexNumber s.data) ∧
    decode ci "0193b9c8d23d7192bc1cc82b43e6e8f" = .error FormatError.InvalidLength ∧
    decode ci "0193b9c8d23d7192bc1cc82b43e6e8g3" = .error FormatError.InvalidCharacter ∧
    decode ci "0193b9c8d23d7192bc1cc82b43e6e8f3" = .ok exampleIdentifier := by
  refine ⟨?_, ?_, ?_, ?_, ?_, ?_, ?_⟩
  · exact decode_of_length ci s
  · intro hl hc
    obtain ⟨c, hc, hn⟩ := hc
    exact decode_of_parse_none ci s hl
      (parseHex_none_of_mem ci s.data 0 ⟨c, hc, hexValue_none_of_not_hex ci c hn⟩)
  · intro hl hc
    obtain ⟨c, hc, hn⟩ := hc
    exact decode_of_parse_none false s hl
      (parseHex_none_of_mem false s.data 0 ⟨c, hc, hexValue_none_of_not_lower c hn⟩)
  · exact decode_of_wellFormed ci s
  · cases ci <;> rfl
  · cases ci <;> rfl
  · cases ci <;> rfl

/-- C5 at the three example texts, through the general statements. -/
theorem decode_validates_witness :
    decode true "0193b9c8d23d7192bc1cc82b43e6e8f" = .error FormatError.InvalidLength ∧
    decode true "0193b9c8d23d7192bc1cc82b43e6e8g3" = .error FormatError.InvalidCharacter ∧
    decode false "0193B9C8D23D7192BC1CC82B43E6E8F3" = .error FormatError.InvalidCharacter ∧
    (∃ id : Identifier, decode true "0193b9c8d23d7192bc1cc82b43e6e8f3" = .ok id ∧
      id.val = hexNumber "0193b9c8d23d7192bc1cc82b43e6e8f3".data) :=
  ⟨(decode_validates true "0193b9c8d23d7192bc1cc82b43e6e8f").1 (by decide),
    (decode_validates true "0193b9c8d23d7192bc1cc82b43e6e8g3").2.1 (by decide)
      ⟨'g', by decide, by decide⟩,
    (decode_validates false "0193B9C8D23D7192BC1CC82B43E6E8F3").2.2.1 (by decide)
      ⟨'B', by decide, by decide⟩,
    (decode_validates true "0193b9c8d23d7192bc1cc82b43e6e8f3").2.2.2.1 (by decide)⟩

/-- C6: format stability.  For every 128-bit identifier `encode` gives exactly 32
characters, each in `[0-9a-f]`; character `i` is the hexadecimal digit of weight
`16^(31-i)`, so characters `2k` and `2k+1` are the high and low half of byte `k`
counted from the most significant byte, zeros included; the number written is the
identifier and `decode` gives it back.  Every text `generate` produces is such an
encoding, hence well formed and decodable. -/
theorem format_stability (ci : Bool) (id : Identifier) :
    (encode id).length = 32 ∧
    (∀ c ∈ (encode id).data, LowerHex c) ∧
    (∀ i, i < 32 → (encode id).data[i]? = some (hexChar (id.val / 16 ^ (31 - i) % 16))) ∧
    (∀ k, k < 16 →
      (encode id).data[2 * k]? = some (hexChar (id.val / 256 ^ (15 - k) % 256 / 16)) ∧
      (encode id).data[2 * k + 1]? = some (hexChar (id.val / 256 ^ (15 - k) % 256 % 16))) ∧
    hexNumber (encode id).data = id.val ∧
    decode ci (encode id) = .ok id ∧
    (∀ (L : Layout) (t sequence randomness : Nat),
      WellFormed (generate_at L t sequence randomness) ∧
      decode ci (generate_at L t sequence randomness) = .ok (pack L t sequence randomness)) := by
  refine ⟨encode_length id, hexDigits_lowerHex 32 id.val, ?_, ?_, hexNumber_encode id,
    decode_encode ci id, ?_⟩
  · intro i hi
    exact hexDigits_getElem 32 id.val i hi
  · intro k hk
    have h1 := hexDigits_getElem 32 id.val (2 * k) (by omega)
    have h2 := hexDigits_getElem 32 id.val (2 * k + 1) (by omega)
    have e1 : 32 - 1 - 2 * k = 2 * (15 - k) + 1 := by omega
    have e2 : 32 - 1 - (2 * k + 1) = 2 * (15 - k) := by omega
    have p2 : (16 : Nat) ^ (2 * (15 - k)) = 256 ^ (15 - k) := by
      rw [Nat.pow_mul]
    have p1 : (16 : Nat) ^ (2 * (15 - k) + 1) = 256 ^ (15 - k) * 16 := by
      rw [Nat.pow_succ, p2]
    rw [e1, p1] at h1
    rw [e2, p2] at h2
    have d1 : id.val / (256 ^ (15 - k) * 16) % 16 = id.val / 256 ^ (15 - k) % 256 / 16 := by
      rw [← Nat.div_div_eq_div_mul]
      omega
    have d2 : id.val / 256 ^ (15 - k) % 16 = id.val / 256 ^ (15 - k) % 256 % 16 := by
      omega
    rw [d1] at h1
    rw [d2] at h2
    exact ⟨h1, h2⟩
  · intro L t sequence randomness
    exact ⟨encode_wellFormed _, decode_encode ci _⟩

/-- C6 at the example identifier. -/
theorem format_stability_witness :
    encode exampleIdentifier = "0193b9c8d23d7192bc1cc82b43e6e8f3" ∧
    (encode exampleIdentifier).length = 32 ∧
    (encode (0 : Identifier)).data[31]? = some '0' ∧
    decode false (encode exampleIdentifier) = .ok exampleIdentifier :=
  ⟨by decide, (format_stability false exampleIdentifier).1,
    (format_stability false 0).2.2.1 31 (by decide),
    (format_stability false exampleIdentifier).2.2.2.2.2.1⟩

/-- C8: batch semantics of `TsidScalarFun`.  On a batch of `n` rows the generator is
called exactly `n` times, one call after the other; every row below `n` is valid
and holds the text of the identifier generated by its call; rows from `n` on are
left as they were; and on a batch of zero rows there is no call and the result
vector is untouched.  The function is total: it raises no error. -/
theorem batch_semantics {U σ : Type} (lib : UUTIDGenerator U σ) (n : Nat) (gen : σ)
    (result : Vector) :
    (TsidScalarFun lib n gen result).calls = n ∧
    (TsidScalarFun lib n gen result).gen = genAfter lib n gen ∧
    (∀ i, i < n →
      (TsidScalarFun lib n gen result).result.validity i = true ∧
      (TsidScalarFun lib n gen result).result.data i =
        lib.to_string (lib.new_id (genAfter lib i gen)).1) ∧
    (∀ i, n ≤ i →
      (TsidScalarFun lib n gen result).result.validity i = result.validity i ∧
      (TsidScalarFun lib n gen result).result.data i = result.data i) ∧
    ((TsidScalarFun lib 0 gen result).calls = 0 ∧
      (TsidScalarFun lib 0 gen result).gen = gen ∧
      (TsidScalarFun lib 0 gen result).result = result) := by
  refine ⟨?_, ?_, ?_, ?_, ⟨rfl, rfl, rfl⟩⟩
  · have h := (loop_calls lib n 0 { gen := gen, calls := 0, result := result }).1
    simpa [TsidScalarFun] using h
  · exact (loop_calls lib n 0 { gen := gen, calls := 0, result := result }).2
  · intro i hi
    have h := loop_inside lib n 0 { gen := gen, calls := 0, result := result } i hi
    rw [Nat.zero_add] at h
    exact ⟨h.2, h.1⟩
  · intro i hi
    have h := loop_outside lib n 0 { gen := gen, calls := 0, result := result } i
      (Or.inr (by omega))
    exact ⟨h.2, h.1⟩

/-- C8 on a batch of three rows and on an empty batch, with a generator that counts. -/
theorem batch_semantics_witness :
    (TsidScalarFun counterGenerator 3 1733988766269 Vector.blank).calls = 3 ∧
    (TsidScalarFun counterGenerator 3 1733988766269 Vector.blank).result.validity 2 = true ∧
    (TsidScalarFun counterGenerator 3 1733988766269 Vector.blank).result.data 2 =
      "0193b9c8d23f78000000000000000000" ∧
    (TsidScalarFun counterGenerator 3 1733988766269 Vector.blank).result.validity 3 = false ∧
    (TsidScalarFun counterGenerator 0 1733988766269 Vector.blank).calls = 0 :=
  ⟨(batch_semantics counterGenerator 3 1733988766269 Vector.blank).1,
    ((batch_semantics counterGenerator 3 1733988766269 Vector.blank).2.2.1 2 (by decide)).1,
    ((batch_semantics counterGenerator 3 1733988766269 Vector.blank).2.2.1 2 (by decide)).2.trans
      (by decide),
    ((batch_semantics counterGenerator 3 1733988766269 Vector.blank).2.2.2.1 3 (by decide)).1,
    (batch_semantics counterGenerator 3 1733988766269 Vector.blank).2.2.2.2.1⟩

/-- C9: `LoadInternal` registers exactly two entries, after those already there:
"tsid", with no argument, returning VARCHAR, bound to `TsidScalarFun` and VOLATILE;
and "tsid_to_timestamp", with one VARCHAR argument, returning TIMESTAMP, bound to
`TsidToTimestampScalarFun`.  No binding it registers for `TsidScalarFun` has a
cacheable stability. -/
theorem registration (loader : ExtensionLoader) :
    (LoadInternal loader).registered.length = loader.registered.length + 2 ∧
    (LoadInternal loader).registered.take loader.registered.length = loader.registered ∧
    (LoadInternal loader).bindings = loader.bindings ++
      [{ name := "tsid", arguments := [], return_type := LogicalType.VARCHAR,
         function := FunctionImpl.TsidScalarFun, stability := FunctionStability.VOLATILE },
       { name := "tsid_to_timestamp", arguments := [LogicalType.VARCHAR],
         return_type := LogicalType.TIMESTAMP,
         function := FunctionImpl.TsidToTimestampScalarFun,
         stability := FunctionStability.CONSISTENT }] ∧
    (∀ b ∈ (LoadInternal { registered := [] }).bindings,
      (b.name = "tsid" ∨ b.function = FunctionImpl.TsidScalarFun) →
        b.stability = FunctionStability.VOLATILE) := by
  refine ⟨?_, ?_, ?_, ?_⟩
  · simp [LoadInternal, ExtensionLoader.RegisterFunction]
  · simp [LoadInternal, ExtensionLoader.RegisterFunction]
  · simp [LoadInternal, ExtensionLoader.RegisterFunction, ExtensionLoader.bindings,
      CreateScalarFunctionInfo.ofSet, ScalarFunctionSet.AddFunction, ScalarFunction.unnamed,
      ScalarFunction.named]
  · decide

/-- C9 on a fresh loader. -/
theorem registration_witness :
    (LoadInternal { registered := [] }).registered.length = 2 ∧
    (LoadInternal { registered := [] }).bindings.map (fun b => (b.name, b.stability)) =
      [("tsid", FunctionStability.VOLATILE),
       ("tsid_to_timestamp", FunctionStability.CONSISTENT)] :=
  ⟨(registration { registered := [] }).1, by
    rw [(registration { registered := [] }).2.2.1]; decide⟩

/-- C10: unit conversion.  When the library's time point counts milliseconds and
the decoded identifier's time is `m` with `0 ≤ m < 2^48`, the per-row function
returns exactly `1000 * m` microseconds; that value fits a signed 64-bit integer and
divided by 1000 gives `m` back; and the conversion preserves and reflects order and
equality of such millisecond values. -/
theorem unit_conversion {U ε : Type} (lib : UUTIDReader U ε) (s : String) (id : U) (m : Int)
    (hp : lib.period = Period.milli) (hd : lib.from_string s = .ok id)
    (ht : lib.time id = .ok m) (h0 : 0 ≤ m) (h1 : m < 2 ^ 48) :
    TsidToTimestampScalarFun.lambda lib s = .ok ⟨1000 * m⟩ ∧
    fitsInt64 (1000 * m) ∧
    Int.tdiv (1000 * m) 1000 = m ∧
    (∀ m2 : Int, 0 ≤ m2 → m2 < 2 ^ 48 →
      (m < m2 ↔ duration_cast_microseconds lib.period m <
        duration_cast_microseconds lib.period m2) ∧
      (m = m2 ↔ duration_cast_microseconds lib.period m =
        duration_cast_microseconds lib.period m2)) := by
  refine ⟨?_, ?_, ?_, ?_⟩
  · rw [row_of_decoded lib s id m hd ht, hp, duration_cast_milli_exact m h0 h1]
  · unfold fitsInt64
    constructor <;> omega
  · rw [Int.mul_comm]
    exact Int.mul_tdiv_cancel m (by decide)
  · intro m2 h2 h3
    rw [hp, duration_cast_milli_exact m h0 h1, duration_cast_milli_exact m2 h2 h3]
    constructor <;> constructor <;> intro h <;> omega

/-- C10 at the example text, with the codec of the design document. -/
theorem unit_conversion_witness :
    TsidToTimestampScalarFun.lambda (specReader false) "0193b9c8d23d7192bc1cc82b43e6e8f3" =
      .ok ⟨1000 * 1733988766269⟩ ∧
    fitsInt64 (1000 * 1733988766269) ∧
    Int.tdiv (1000 * 1733988766269) 1000 = 1733988766269 :=
  ⟨(unit_conversion (specReader false) "0193b9c8d23d7192bc1cc82b43e6e8f3" exampleIdentifier
      1733988766269 rfl rfl rfl (by decide) (by decide)).1,
    (unit_conversion (specReader false) "0193b9c8d23d7192bc1cc82b43e6e8f3" exampleIdentifier
      1733988766269 rfl rfl rfl (by decide) (by decide)).2.1,
    (unit_conversion (specReader false) "0193b9c8d23d7192bc1cc82b43e6e8f3" exampleIdentifier
      1733988766269 rfl rfl rfl (by decide) (by decide)).2.2.1⟩

end Tsid
